import Mathlib

set_option maxHeartbeats 1000000

/-!
Shallow embedding of `marabou/training/scripts/cnn_classifier_dataset_collection.py`.

The script's `main` iterates over a fixed class list.  For each class it

* raises `ValueError` if the per-class manifest `<class>.txt` is missing (line 23),
* creates the class directory with a `status.txt` marker containing `'NOK'` if the
  directory does not exist (lines 25-28), re-creates a missing marker with `'NOK'`
  (lines 29-32), and decides to (re-)collect when the trimmed marker is not `"OK"`
  (lines 33-35),
* when collecting: removes every file matched by `glob(class_dir + "/*")` (lines 41-43),
  downloads each manifest URL, writing successful responses to files named
  `str(total).zfill(8) + ".jpg"`, catching `requests.ConnectionError` by printing a
  message that references `p_1` (lines 44-59), then writes `'OK'` to the marker
  (lines 61-62),
* always runs a validation pass that decodes every file except `status.txt` with
  `cv2.imread` and deletes files that decode to `None` (counting them) or raise
  `cv2.error` (not counted) (lines 64-88).

Directories are modelled as association lists of file name to file content, the
network and the image decoder as functions supplied by a `World`, and uncaught
Python exceptions as explicit `PyErr` values returned next to the final state.
-/

namespace Marabou

/-- Outcome of `requests.get(url, timeout=60)`: a successful response carrying its body,
a raised `requests.ConnectionError`, or any other raised exception (uncaught by the script). -/
inductive FetchResult where
  | success (content : String)
  | connectionError
  | otherError
deriving Repr, DecidableEq

/-- Outcome of `cv2.imread` on a file with given content: a valid image, the value `None`,
or a raised `cv2.error`. -/
inductive DecodeResult where
  | image
  | noneResult
  | cvError
deriving Repr, DecidableEq

/-- Python exceptions the script can propagate to its caller. -/
inductive PyErr where
  | valueError (msg : String)
  | nameError (msg : String)
  | otherException
deriving Repr, DecidableEq

/-- The external collaborators: HTTP fetch keyed by URL and image decode keyed by the
bytes of the file being decoded (`cv2.imread` reads the file at a path; its result is a
function of that file's content). -/
structure World where
  fetch : String → FetchResult
  imread : String → DecodeResult

/-- A class directory: a finite map from file name to file content, as an association
list in creation order (`os.listdir` enumeration order). -/
abbrev Dir := List (String × String)

/-- Python `str.isspace` characters relevant to `str.strip()`. -/
def pySpace (c : Char) : Bool :=
  c = ' ' || c = '\t' || c = '\n' || c = '\r' || c = '\x0b' || c = '\x0c'

/-- Python `s.strip()`: drop whitespace from both ends. -/
def strip (s : String) : String :=
  String.mk (((s.data.dropWhile pySpace).reverse.dropWhile pySpace).reverse)

/-- Helper for `split("\n")` at the character level: split a character list at every
newline, keeping empty groups (Python `str.split` with an explicit separator). -/
def splitNlChars : List Char → List (List Char)
  | [] => [[]]
  | c :: rest =>
    match splitNlChars rest with
    | [] => [[]]
    | g :: gs => if c = '\n' then [] :: g :: gs else (c :: g) :: gs

/-- Python `s.split("\n")`. -/
def splitNl (s : String) : List String := (splitNlChars s.data).map String.mk

/-- Whether `glob` with pattern `*` hides this name (names starting with a dot). -/
def hiddenName (n : String) : Bool :=
  match n.data with
  | [] => false
  | c :: _ => c = '.'

/-- Model of `os.path.isfile(os.path.join(class_dir, n))`. -/
def isfile (d : Dir) (n : String) : Bool := d.any (fun p => p.1 == n)

/-- Model of `open(n).read()` inside the class directory (used only where the file exists). -/
def readFile (d : Dir) (n : String) : String :=
  ((d.find? (fun p => p.1 == n)).map Prod.snd).getD ""

/-- Model of `open(n, "w").write(c)`: overwrite an existing file in place, else create it. -/
def writeFile (d : Dir) (n c : String) : Dir :=
  if isfile d n then d.map (fun p => if p.1 == n then (n, c) else p) else d ++ [(n, c)]

/-- Model of `os.remove(os.path.join(class_dir, n))`. -/
def removeFile (d : Dir) (n : String) : Dir := d.filter (fun p => !(p.1 == n))

/-- Lines 41-43: `for f in glob.glob(os.path.join(class_dir, "*")): os.remove(f)`.
`glob` with pattern `*` matches exactly the entries whose name does not start with a
dot, so those are removed and dotfiles survive. -/
def purge (d : Dir) : Dir := d.filter (fun p => hiddenName p.1)

/-- Decimal digit characters of a natural number, most significant first (the digits
produced by Python `str` on a non-negative integer); structural recursion on fuel. -/
def natToDigits : Nat → Nat → List Char
  | 0, _ => []
  | fuel + 1, n =>
      if n < 10 then [Nat.digitChar n]
      else natToDigits fuel (n / 10) ++ [Nat.digitChar (n % 10)]

/-- Python `str(total)` for the non-negative counter `total`. -/
def natStr (n : Nat) : List Char := natToDigits (n + 1) n

/-- Python `str(total).zfill(8)`: left-pad the decimal representation with `'0'` to
width 8 (no padding when already at least 8 characters wide). -/
def zfill8 (n : Nat) : String := String.mk (List.replicate (8 - (natStr n).length) '0' ++ natStr n)

/-- Line 50-51: the file name `"{}.jpg".format(str(total).zfill(8))`. -/
def jpgName (n : Nat) : String := zfill8 n ++ ".jpg"

/-- Lines 45-59: the download loop.  State: remaining URLs, directory, counter `total`,
the optional last value of `p_1` (`none` while `p_1` is still unassigned), and the
number of skip messages printed so far.  On `requests.ConnectionError` the handler
prints a message referencing `p_1`; when `p_1` has never been assigned this raises
`NameError`, otherwise the URL is skipped.  Any other fetch exception propagates. -/
def downloadLoop (fetch : String → FetchResult) (classDirPath : String) :
    List String → Dir → Nat → Option String → Nat → ((Dir × Nat × Option String × Nat) × Option PyErr)
  | [], d, total, p1, skipped => ((d, total, p1, skipped), none)
  | url :: rest, d, total, p1, skipped =>
    match fetch url with
    | .success content =>
        downloadLoop fetch classDirPath rest (writeFile d (jpgName total) content) (total + 1)
          (some (classDirPath ++ "/" ++ jpgName total)) skipped
    | .connectionError =>
        match p1 with
        | none => ((d, total, p1, skipped), some (.nameError "p_1"))
        | some _ => downloadLoop fetch classDirPath rest d total p1 (skipped + 1)
    | .otherError => ((d, total, p1, skipped), some .otherException)

/-- Observable outcome of the collection (download) phase of one class, lines 25-62.
`dir` is the directory after the phase, `preDownloadDir` the directory right after the
purge (just before the download loop) when collection ran, `markerWrites` the contents
written to `status.txt` in order, and `err` a propagated exception, if any. -/
structure CollectResult where
  dir : Dir
  p1 : Option String
  didCollect : Bool
  preDownloadDir : Option Dir
  collected : Nat
  skipped : Nat
  markerWrites : List String
  err : Option PyErr
deriving Repr, DecidableEq

/-- Lines 25-32: directory creation with a `'NOK'` marker when the directory is
missing, and marker re-creation with `'NOK'` (setting `collect_images`) when the
marker file is missing.  Returns the directory, the marker writes so far, and the
`collect_images` flag after line 32. -/
def setupDir (dir? : Option Dir) : Dir × List String × Bool :=
  let d0 : Dir := match dir? with
    | none => writeFile [] "status.txt" "NOK"
    | some d => d
  let w0 : List String := match dir? with
    | none => ["NOK"]
    | some _ => []
  if isfile d0 "status.txt" then (d0, w0, false)
  else (writeFile d0 "status.txt" "NOK", w0 ++ ["NOK"], true)

/-- Lines 25-62 for one class whose manifest content is `manifest`: directory and marker
creation, the `collect_images` decision from the trimmed marker, and, when collecting,
the purge, the download loop over `manifest.strip().split("\n")`, and the final `'OK'`
marker write. -/
def collectPhase (fetch : String → FetchResult) (classDirPath manifest : String)
    (dir? : Option Dir) (p1 : Option String) : CollectResult :=
  let s := setupDir dir?
  let d1 : Dir := s.1
  let w1 : List String := s.2.1
  let ci1 : Bool := s.2.2
  let classStatus : String := strip (readFile d1 "status.txt")
  let collect : Bool := ci1 || (classStatus != "OK")
  if collect then
    let d2 := purge d1
    let rows := splitNl (strip manifest)
    match downloadLoop fetch classDirPath rows d2 0 p1 0 with
    | ((d3, total, p1x, skipped), some e) =>
        ⟨d3, p1x, true, some d2, total, skipped, w1, some e⟩
    | ((d3, total, p1x, skipped), none) =>
        ⟨writeFile d3 "status.txt" "OK", p1x, true, some d2, total, skipped, w1 ++ ["OK"], none⟩
  else
    ⟨d1, p1, false, none, 0, 0, w1, none⟩

/-- Lines 68-87: iterate over the snapshot of file names, decode each file's current
content; on `None` mark for deletion and increment the tally, on `cv2.error` mark for
deletion without incrementing; marked files are removed. -/
def validateLoop (imread : String → DecodeResult) :
    List String → Dir → Nat → Dir × Nat
  | [], d, total => (d, total)
  | im :: rest, d, total =>
    match imread (readFile d im) with
    | .image => validateLoop imread rest d total
    | .noneResult => validateLoop imread rest (removeFile d im) (total + 1)
    | .cvError => validateLoop imread rest (removeFile d im) total

/-- Lines 64-88: build the file-name list, remove `"status.txt"` from it
(`list.remove` raises `ValueError` when absent), and run the decode-and-delete scan
with the tally reset to 0. -/
def validatePhase (imread : String → DecodeResult) (d : Dir) : (Dir × Nat) × Option PyErr :=
  let names := d.map Prod.fst
  if "status.txt" ∈ names then
    (validateLoop imread (names.erase "status.txt") d 0, none)
  else ((d, 0), some (.valueError "list.remove(x): x not in list"))

/-- Observable outcome of processing one class (manifest check, collection phase,
validation pass).  `dir?` is the class directory afterwards (`none` when it was never
created), `err` an exception propagated out of `main`. -/
structure ClassOut where
  dir? : Option Dir
  p1 : Option String
  didCollect : Bool
  collected : Nat
  skipped : Nat
  deletedReported : Nat
  err : Option PyErr
deriving Repr, DecidableEq

/-- Lines 19-88, one iteration of the class loop: raise `ValueError` when the manifest
is missing (line 23-24, before the directory is touched), otherwise run the collection
phase and, when it did not raise, the validation pass. -/
def processClass (w : World) (className classDirPath : String) (manifest? : Option String)
    (dir? : Option Dir) (p1 : Option String) : ClassOut :=
  match manifest? with
  | none => ⟨dir?, p1, false, 0, 0, 0, some (.valueError ("no " ++ className ++ " file"))⟩
  | some m =>
    let c := collectPhase w.fetch classDirPath m dir? p1
    match c.err with
    | some e => ⟨some c.dir, c.p1, c.didCollect, c.collected, c.skipped, 0, some e⟩
    | none =>
      match validatePhase w.imread c.dir with
      | ((dv, deleted), e?) => ⟨some dv, c.p1, c.didCollect, c.collected, c.skipped, deleted, e?⟩

/-- The dataset root: manifest content of `<class>.txt` (when that file exists) and
the class directories (when they exist). -/
structure RootState where
  manifests : String → Option String
  dirs : String → Option Dir

/-- Lines 18-88: the class loop.  `p_1` is a `main`-local variable, so its binding
state threads across classes.  An exception stops the loop; filesystem effects made
so far persist. -/
def runClasses (w : World) (datasetDir : String) :
    List String → RootState → Option String → RootState × Option String × Option PyErr
  | [], st, p1 => (st, p1, none)
  | c :: rest, st, p1 =>
    let r := processClass w c (datasetDir ++ "/" ++ c) (st.manifests c) (st.dirs c) p1
    let st' : RootState := ⟨st.manifests, fun c' => if c' = c then r.dir? else st.dirs c'⟩
    match r.err with
    | some e => (st', r.p1, some e)
    | none => runClasses w datasetDir rest st' r.p1

/-- Line 13: the fixed class list. -/
def classes : List String := ["sunglasses", "jeans", "dress"]

/-- Lines 13-88, `main`: raise `ValueError` when the dataset root is missing (before
any class is processed), otherwise run the class loop with `p_1` unassigned. -/
def mainRun (w : World) (datasetDir : String) (datasetDirExists : Bool) (st : RootState) :
    RootState × Option String × Option PyErr :=
  if datasetDirExists then runClasses w datasetDir classes st none
  else (st, none, some (.valueError "please create dataset folder and place download scripts inside it"))

/-! ### Basic lemmas about the directory model -/

theorem isfile_iff_mem (d : Dir) (n : String) :
    isfile d n = true ↔ n ∈ d.map Prod.fst := by
  simp [isfile, List.any_eq_true, List.mem_map]

theorem isfile_eq_false_iff (d : Dir) (n : String) :
    isfile d n = false ↔ n ∉ d.map Prod.fst := by
  rw [← isfile_iff_mem]
  cases isfile d n <;> simp

theorem isfile_append (d₁ d₂ : Dir) (n : String) :
    isfile (d₁ ++ d₂) n = (isfile d₁ n || isfile d₂ n) := by
  simp [isfile]

theorem names_map_write (d : Dir) (n c : String) :
    (d.map (fun p => if p.1 == n then (n, c) else p)).map Prod.fst = d.map Prod.fst := by
  rw [List.map_map]
  apply List.map_congr_left
  intro p _
  cases hp : (p.1 == n) with
  | true =>
    have hn : p.1 = n := by simpa using hp
    simp [Function.comp, hp, hn]
  | false => simp [Function.comp, hp]

theorem names_writeFile (d : Dir) (n c : String) :
    (writeFile d n c).map Prod.fst =
      if isfile d n then d.map Prod.fst else d.map Prod.fst ++ [n] := by
  unfold writeFile
  cases h : isfile d n with
  | true =>
    rw [if_pos rfl, if_pos rfl]
    exact names_map_write d n c
  | false =>
    rw [if_neg (by simp), if_neg (by simp), List.map_append]
    rfl

theorem isfile_writeFile (d : Dir) (n c m : String) :
    isfile (writeFile d n c) m = (isfile d m || (n == m)) := by
  rw [Bool.eq_iff_iff, Bool.or_eq_true, isfile_iff_mem, isfile_iff_mem, names_writeFile]
  cases h : isfile d n with
  | true =>
    rw [if_pos rfl]
    constructor
    · exact Or.inl
    · rintro (hm | hm)
      · exact hm
      · have hnm : n = m := by simpa using hm
        exact hnm ▸ (isfile_iff_mem d n).mp h
  | false =>
    rw [if_neg (by simp)]
    simp only [List.mem_append, List.mem_singleton, beq_iff_eq]
    constructor
    · rintro (hm | rfl)
      · exact Or.inl hm
      · exact Or.inr rfl
    · rintro (hm | rfl)
      · exact Or.inl hm
      · exact Or.inr rfl

theorem writeFile_of_not_isfile (d : Dir) (n c : String) (h : isfile d n = false) :
    writeFile d n c = d ++ [(n, c)] := by
  simp [writeFile, h]

theorem find?_map_write_self (d : Dir) (n c : String) (h : isfile d n = true) :
    (d.map (fun p => if p.1 == n then (n, c) else p)).find? (fun p => p.1 == n) = some (n, c) := by
  induction d with
  | nil => simp [isfile] at h
  | cons p rest ih =>
    cases hp : (p.1 == n) with
    | true =>
      have hn : p.1 = n := by simpa using hp
      simp [List.find?_cons, hn]
    | false =>
      have h' : isfile rest n = true := by
        simpa [isfile, List.any_cons, hp] using h
      have hn : ¬(p.1 = n) := by simpa using hp
      simpa [List.find?_cons, hn] using ih h'

theorem readFile_writeFile_self (d : Dir) (n c : String) :
    readFile (writeFile d n c) n = c := by
  cases h : isfile d n with
  | true =>
    have : writeFile d n c = d.map (fun p => if p.1 == n then (n, c) else p) := by
      simp [writeFile, h]
    rw [readFile, this, find?_map_write_self d n c h]
    rfl
  | false =>
    rw [writeFile_of_not_isfile d n c h, readFile, List.find?_append]
    have hnone : d.find? (fun p => p.1 == n) = none := by
      rw [List.find?_eq_none]
      intro p hp
      have := (List.any_eq_false.mp h) p hp
      simpa using this
    rw [hnone]
    simp

theorem find?_removeFile_ne (d : Dir) (n m : String) (h : m ≠ n) :
    (removeFile d n).find? (fun p => p.1 == m) = d.find? (fun p => p.1 == m) := by
  induction d with
  | nil => rfl
  | cons p rest ih =>
    cases hpm : (p.1 == m) with
    | true =>
      have hp : p.1 = m := by simpa using hpm
      have hpn : (p.1 == n) = false := by simp [hp, h]
      simp [removeFile, List.find?_cons, hpn, hpm]
    | false =>
      cases hpn : (p.1 == n) with
      | true =>
        simpa [removeFile, List.find?_cons, hpn, hpm] using ih
      | false =>
        simpa [removeFile, List.find?_cons, hpn, hpm] using ih

theorem readFile_removeFile_ne (d : Dir) (n m : String) (h : m ≠ n) :
    readFile (removeFile d n) m = readFile d m := by
  rw [readFile, readFile, find?_removeFile_ne d n m h]

theorem isfile_removeFile_ne (d : Dir) (n m : String) (h : m ≠ n) :
    isfile (removeFile d n) m = isfile d m := by
  rw [isfile, removeFile, List.any_filter, isfile, Bool.eq_iff_iff,
    List.any_eq_true, List.any_eq_true]
  constructor
  · rintro ⟨p, hp, hpp⟩
    have hpp' : (!(p.1 == n)) = true ∧ (p.1 == m) = true := by simpa using hpp
    exact ⟨p, hp, hpp'.2⟩
  · rintro ⟨p, hp, hpm⟩
    have hpm' : p.1 = m := by simpa using hpm
    exact ⟨p, hp, by simp [hpm', h]⟩

theorem names_removeFile_sublist (d : Dir) (n : String) :
    ((removeFile d n).map Prod.fst).Sublist (d.map Prod.fst) :=
  List.Sublist.map Prod.fst (List.filter_sublist d)

theorem entry_of_isfile (d : Dir) (n : String) (h : isfile d n = true) :
    (n, readFile d n) ∈ d := by
  have hsome : ∃ p, d.find? (fun p => p.1 == n) = some p := by
    rcases hf : d.find? (fun p => p.1 == n) with _ | p
    · exfalso
      rw [List.find?_eq_none] at hf
      obtain ⟨p, hp, hpn⟩ := List.any_eq_true.mp h
      exact hf p hp hpn
    · exact ⟨p, hf⟩
  obtain ⟨p, hp⟩ := hsome
  have h1 : p.1 = n := by simpa using List.find?_some hp
  have h2 : readFile d n = p.2 := by rw [readFile, hp]; rfl
  rw [h2, ← h1]
  exact List.mem_of_find?_eq_some hp

theorem snd_eq_readFile (d : Dir) (p : String × String)
    (hnd : (d.map Prod.fst).Nodup) (hp : p ∈ d) : readFile d p.1 = p.2 := by
  induction d with
  | nil => cases hp
  | cons q rest ih =>
    rw [List.map_cons, List.nodup_cons] at hnd
    rcases List.mem_cons.mp hp with rfl | hp'
    · rw [readFile, List.find?_cons]
      simp
    · have hq : (q.1 == p.1) = false := by
        have hmem : p.1 ∈ rest.map Prod.fst := List.mem_map.mpr ⟨p, hp', rfl⟩
        simp only [beq_eq_false_iff_ne, ne_eq]
        intro hc
        exact hnd.1 (hc ▸ hmem)
      rw [readFile, List.find?_cons, hq]
      exact ih hnd.2 hp'

theorem nodup_names_writeFile (d : Dir) (n c : String)
    (hnd : (d.map Prod.fst).Nodup) : ((writeFile d n c).map Prod.fst).Nodup := by
  rw [names_writeFile]
  cases h : isfile d n with
  | true => rw [if_pos rfl]; exact hnd
  | false =>
    rw [if_neg (by simp)]
    have hn : n ∉ d.map Prod.fst := (isfile_eq_false_iff d n).mp h
    rw [List.nodup_append]
    exact ⟨hnd, List.nodup_singleton n, fun a ha hb => hn (List.mem_singleton.mp hb ▸ ha)⟩

theorem nodup_names_filter (d : Dir) (q : String × String → Bool)
    (hnd : (d.map Prod.fst).Nodup) : ((d.filter q).map Prod.fst).Nodup :=
  List.Nodup.sublist (List.Sublist.map Prod.fst (List.filter_sublist d)) hnd

/-! ### Purge lemmas -/

theorem purge_eq_nil (d : Dir) (h : ∀ p ∈ d, hiddenName p.1 = false) : purge d = [] := by
  rw [purge, List.filter_eq_nil_iff]
  intro p hp
  simp [h p hp]

theorem isfile_purge_marker (d : Dir) : isfile (purge d) "status.txt" = false := by
  rw [isfile, purge, List.any_filter, List.any_eq_false]
  intro p _
  cases hp : (p.1 == "status.txt") with
  | true =>
    have h1 : p.1 = "status.txt" := by simpa using hp
    simp [hiddenName, h1]
  | false => simp [hp]

/-! ### Decimal representation: `zfill8` produces pairwise distinct names -/

/-- Numeric value of a decimal digit character. -/
def charVal (c : Char) : Nat := c.toNat - 48

/-- Value of a most-significant-first digit string. -/
def digitsVal (l : List Char) : Nat := l.foldl (fun a c => 10 * a + charVal c) 0

theorem charVal_digitChar (d : Nat) (hd : d < 10) : charVal (Nat.digitChar d) = d := by
  interval_cases d <;> rfl

theorem digitsVal_append_digit (l : List Char) (c : Char) :
    digitsVal (l ++ [c]) = 10 * digitsVal l + charVal c := by
  rw [digitsVal, List.foldl_append]
  rfl

theorem digitsVal_natToDigits :
    ∀ (fuel n : Nat), n < fuel → digitsVal (natToDigits fuel n) = n := by
  intro fuel
  induction fuel with
  | zero => intro n hn; omega
  | succ fuel ih =>
    intro n hn
    rw [natToDigits]
    by_cases h10 : n < 10
    · rw [if_pos h10]
      show digitsVal [Nat.digitChar n] = n
      rw [show digitsVal [Nat.digitChar n] = 10 * 0 + charVal (Nat.digitChar n) from rfl,
        charVal_digitChar n h10]
      omega
    · have hdiv : n / 10 < fuel := by
        have := Nat.div_lt_self (show 0 < n by omega) (show 1 < 10 by omega)
        omega
      rw [if_neg h10, digitsVal_append_digit, ih (n / 10) hdiv,
        charVal_digitChar (n % 10) (Nat.mod_lt n (by omega))]
      omega

theorem digitsVal_replicate_zero (k : Nat) (l : List Char) :
    digitsVal (List.replicate k '0' ++ l) = digitsVal l := by
  induction k with
  | zero => rfl
  | succ k ih =>
    rw [List.replicate_succ, List.cons_append]
    show List.foldl (fun a c => 10 * a + charVal c) (10 * 0 + charVal '0')
      (List.replicate k '0' ++ l) = digitsVal l
    rw [show 10 * 0 + charVal '0' = 0 from rfl]
    exact ih

theorem digitsVal_zfill8 (n : Nat) : digitsVal (zfill8 n).data = n := by
  show digitsVal (List.replicate (8 - (natStr n).length) '0' ++ natStr n) = n
  rw [digitsVal_replicate_zero, natStr, digitsVal_natToDigits (n + 1) n (Nat.lt_succ_self n)]

theorem zfill8_inj (a b : Nat) (h : zfill8 a = zfill8 b) : a = b := by
  rw [← digitsVal_zfill8 a, ← digitsVal_zfill8 b, h]

theorem jpgName_inj (a b : Nat) (h : jpgName a = jpgName b) : a = b := by
  apply zfill8_inj
  have hd : (zfill8 a).data ++ ".jpg".data = (zfill8 b).data ++ ".jpg".data := by
    have := congrArg String.data h
    rwa [jpgName, jpgName, String.data_append, String.data_append] at this
  have : (zfill8 a).data = (zfill8 b).data := List.append_cancel_right hd
  rcases za : zfill8 a with ⟨la⟩
  rcases zb : zfill8 b with ⟨lb⟩
  rw [za, zb] at this
  simp only at this
  rw [this]

theorem length_zfill8_data (n : Nat) : 8 ≤ (zfill8 n).data.length := by
  show 8 ≤ (List.replicate (8 - (natStr n).length) '0' ++ natStr n).length
  rw [List.length_append, List.length_replicate]
  omega

theorem jpgName_ne_marker (n : Nat) : jpgName n ≠ "status.txt" := by
  intro h
  have hd := congrArg (fun s => s.data.length) h
  rw [jpgName] at hd
  simp only [String.data_append, List.length_append, List.length_cons, List.length_nil] at hd
  have h8 := length_zfill8_data n
  omega

/-! ### Download loop lemmas -/

theorem jpgName_beq_false (i j : Nat) (h : i ≠ j) : (jpgName i == jpgName j) = false := by
  rw [beq_eq_false_iff_ne]
  intro hc
  exact h (jpgName_inj i j hc)

theorem downloadLoop_keeps_marker_absent (fetch : String → FetchResult) (p : String) :
    ∀ (urls : List String) (d : Dir) (t : Nat) (p1 : Option String) (s : Nat),
      isfile d "status.txt" = false →
      isfile (downloadLoop fetch p urls d t p1 s).1.1 "status.txt" = false := by
  intro urls
  induction urls with
  | nil => intro d t p1 s h; exact h
  | cons u rest ih =>
    intro d t p1 s h
    simp only [downloadLoop]
    cases hf : fetch u with
    | success c =>
      apply ih
      rw [isfile_writeFile, h]
      have : (jpgName t == "status.txt") = false := by
        rw [beq_eq_false_iff_ne]
        exact jpgName_ne_marker t
      rw [this]
      rfl
    | connectionError =>
      cases p1 with
      | none => exact h
      | some v => exact ih d t (some v) (s + 1) h
    | otherError => exact h

theorem downloadLoop_success_spec (fetch : String → FetchResult) (p : String) (cf : String → String) :
    ∀ (urls : List String) (d : Dir) (t : Nat) (p1 : Option String) (s : Nat),
      (∀ u ∈ urls, fetch u = .success (cf u)) →
      (∀ j, t ≤ j → isfile d (jpgName j) = false) →
      ∃ q : Option String,
        downloadLoop fetch p urls d t p1 s =
          ((d ++ List.zipWith (fun i v => (jpgName (t + i), cf v)) (List.range urls.length) urls,
            t + urls.length, q, s), none) := by
  intro urls
  induction urls with
  | nil =>
    intro d t p1 s _ _
    exact ⟨p1, by simp [downloadLoop]⟩
  | cons u rest ih =>
    intro d t p1 s hsucc hfresh
    have hfu := hsucc u (List.mem_cons_self u rest)
    simp only [downloadLoop, hfu]
    have hw : writeFile d (jpgName t) (cf u) = d ++ [(jpgName t, cf u)] :=
      writeFile_of_not_isfile d (jpgName t) (cf u) (hfresh t (Nat.le_refl t))
    have hfresh' : ∀ j, t + 1 ≤ j → isfile (d ++ [(jpgName t, cf u)]) (jpgName j) = false := by
      intro j hj
      rw [isfile_append, hfresh j (by omega)]
      have : isfile [(jpgName t, cf u)] (jpgName j) = false := by
        simp [isfile, jpgName_beq_false t j (by omega)]
      rw [this]
      rfl
    obtain ⟨q, hq⟩ := ih (d ++ [(jpgName t, cf u)]) (t + 1)
      (some (p ++ "/" ++ jpgName t)) s (fun v hv => hsucc v (List.mem_cons_of_mem u hv)) hfresh'
    refine ⟨q, ?_⟩
    rw [hw, hq]
    have hfun : (fun i v => (jpgName (t + 1 + i), cf v)) =
        (fun i v => (jpgName (t + (i + 1)), cf v)) := by
      funext i v
      rw [show t + 1 + i = t + (i + 1) by omega]
    have hzip : List.zipWith (fun i v => (jpgName (t + i), cf v))
        (List.range (u :: rest).length) (u :: rest) =
        (jpgName t, cf u) ::
          List.zipWith (fun i v => (jpgName (t + 1 + i), cf v)) (List.range rest.length) rest := by
      rw [List.length_cons, List.range_succ_eq_map, List.zipWith_cons_cons,
        List.zipWith_map_left, hfun]
      simp
    rw [hzip]
    have hlen : t + 1 + rest.length = t + (u :: rest).length := by
      rw [List.length_cons]
      omega
    rw [List.append_assoc, List.singleton_append, hlen]

/-! ### Validation loop specification -/

theorem beq_image_image : (DecodeResult.image == DecodeResult.image) = true := rfl

theorem beq_image_noneResult : (DecodeResult.image == DecodeResult.noneResult) = false := rfl

theorem beq_noneResult_image : (DecodeResult.noneResult == DecodeResult.image) = false := rfl

theorem beq_noneResult_noneResult :
    (DecodeResult.noneResult == DecodeResult.noneResult) = true := rfl

theorem beq_cvError_image : (DecodeResult.cvError == DecodeResult.image) = false := rfl

theorem beq_cvError_noneResult :
    (DecodeResult.cvError == DecodeResult.noneResult) = false := rfl

/-- The validation loop deletes exactly the scanned files whose content does not decode
to a valid image, and its tally counts exactly the scanned files decoding to `None`. -/
theorem validateLoop_spec (imread : String → DecodeResult) :
    ∀ (ns : List String) (d : Dir) (t : Nat),
      (d.map Prod.fst).Nodup → ns.Nodup → (∀ n ∈ ns, isfile d n = true) →
      validateLoop imread ns d t =
        (d.filter (fun p => !(ns.contains p.1) || (imread p.2 == DecodeResult.image)),
          t + ns.countP (fun n => imread (readFile d n) == DecodeResult.noneResult)) := by
  intro ns
  induction ns with
  | nil =>
    intro d t _ _ _
    simp [validateLoop]
  | cons n rest ih =>
    intro d t hnd hns hsub
    have hnotmem : n ∉ rest := (List.nodup_cons.mp hns).1
    have hrest : rest.Nodup := (List.nodup_cons.mp hns).2
    have hsubr : ∀ m ∈ rest, isfile d m = true :=
      fun m hm => hsub m (List.mem_cons_of_mem n hm)
    simp only [validateLoop]
    cases him : imread (readFile d n) with
    | image =>
      rw [ih d t hnd hrest hsubr]
      have hdir : d.filter (fun p => !(rest.contains p.1) || (imread p.2 == DecodeResult.image)) =
          d.filter (fun p => !((n :: rest).contains p.1) || (imread p.2 == DecodeResult.image)) := by
        apply List.filter_congr
        intro p hp
        cases hp1 : (p.1 == n) with
        | true =>
          have hp1' : p.1 = n := by simpa using hp1
          have hpc : p.2 = readFile d n := by rw [← hp1', snd_eq_readFile d p hnd hp]
          rw [List.contains_cons, hp1, hpc, him, beq_image_image]
          simp
        | false =>
          rw [List.contains_cons, hp1, Bool.false_or]
      have hcount : rest.countP (fun m => imread (readFile d m) == DecodeResult.noneResult) =
          (n :: rest).countP (fun m => imread (readFile d m) == DecodeResult.noneResult) := by
        rw [List.countP_cons, him, beq_image_noneResult]
        simp
      rw [hdir, hcount]
    | noneResult =>
      have hnd' : ((removeFile d n).map Prod.fst).Nodup := nodup_names_filter d _ hnd
      have hsub' : ∀ m ∈ rest, isfile (removeFile d n) m = true := by
        intro m hm
        have hmn : m ≠ n := fun hc => hnotmem (hc ▸ hm)
        rw [isfile_removeFile_ne d n m hmn]
        exact hsubr m hm
      rw [ih (removeFile d n) (t + 1) hnd' hrest hsub']
      have hdir : (removeFile d n).filter
            (fun p => !(rest.contains p.1) || (imread p.2 == DecodeResult.image)) =
          d.filter (fun p => !((n :: rest).contains p.1) || (imread p.2 == DecodeResult.image)) := by
        rw [removeFile, List.filter_filter]
        apply List.filter_congr
        intro p hp
        cases hp1 : (p.1 == n) with
        | true =>
          have hp1' : p.1 = n := by simpa using hp1
          have hpc : p.2 = readFile d n := by rw [← hp1', snd_eq_readFile d p hnd hp]
          rw [List.contains_cons, hp1, hpc, him, beq_noneResult_image]
          simp
        | false =>
          rw [List.contains_cons, hp1]
          simp
      have hcount : rest.countP (fun m => imread (readFile (removeFile d n) m) == DecodeResult.noneResult) =
          rest.countP (fun m => imread (readFile d m) == DecodeResult.noneResult) := by
        apply List.countP_congr
        intro m hm
        have hmn : m ≠ n := fun hc => hnotmem (hc ▸ hm)
        rw [readFile_removeFile_ne d n m hmn]
      rw [hdir, hcount, List.countP_cons, him, beq_noneResult_noneResult]
      simp only [Prod.mk.injEq]
      exact ⟨trivial, by simp; omega⟩
    | cvError =>
      have hnd' : ((removeFile d n).map Prod.fst).Nodup := nodup_names_filter d _ hnd
      have hsub' : ∀ m ∈ rest, isfile (removeFile d n) m = true := by
        intro m hm
        have hmn : m ≠ n := fun hc => hnotmem (hc ▸ hm)
        rw [isfile_removeFile_ne d n m hmn]
        exact hsubr m hm
      rw [ih (removeFile d n) t hnd' hrest hsub']
      have hdir : (removeFile d n).filter
            (fun p => !(rest.contains p.1) || (imread p.2 == DecodeResult.image)) =
          d.filter (fun p => !((n :: rest).contains p.1) || (imread p.2 == DecodeResult.image)) := by
        rw [removeFile, List.filter_filter]
        apply List.filter_congr
        intro p hp
        cases hp1 : (p.1 == n) with
        | true =>
          have hp1' : p.1 = n := by simpa using hp1
          have hpc : p.2 = readFile d n := by rw [← hp1', snd_eq_readFile d p hnd hp]
          rw [List.contains_cons, hp1, hpc, him, beq_cvError_image]
          simp
        | false =>
          rw [List.contains_cons, hp1]
          simp
      have hcount : rest.countP (fun m => imread (readFile (removeFile d n) m) == DecodeResult.noneResult) =
          rest.countP (fun m => imread (readFile d m) == DecodeResult.noneResult) := by
        apply List.countP_congr
        intro m hm
        have hmn : m ≠ n := fun hc => hnotmem (hc ▸ hm)
        rw [readFile_removeFile_ne d n m hmn]
      rw [hdir, hcount, List.countP_cons, him, beq_cvError_noneResult]
      simp

/-! ### Validation phase lemmas -/

theorem contains_iff_mem (l : List String) (a : String) : l.contains a = true ↔ a ∈ l := by
  induction l with
  | nil => simp
  | cons x xs ih =>
    rw [List.contains_cons]
    simp [List.mem_cons, Bool.or_eq_true, beq_iff_eq, ih]

theorem contains_eq_false_iff (l : List String) (a : String) :
    l.contains a = false ↔ a ∉ l := by
  rw [← contains_iff_mem l a]
  cases l.contains a <;> simp

theorem strip_OK : strip "OK" = "OK" := rfl

theorem strip_NOK : strip "NOK" = "NOK" := rfl

theorem isfile_eq_isSome_find? (d : Dir) (n : String) :
    isfile d n = (d.find? (fun p => p.1 == n)).isSome := by
  rw [Bool.eq_iff_iff, isfile, List.any_eq_true, List.find?_isSome]

theorem find?_filter_of_name (d : Dir) (q : String × String → Bool) (m : String)
    (hq : ∀ p : String × String, (p.1 == m) = true → q p = true) :
    (d.filter q).find? (fun p => p.1 == m) = d.find? (fun p => p.1 == m) := by
  induction d with
  | nil => rfl
  | cons p rest ih =>
    cases hpm : (p.1 == m) with
    | true =>
      have hqp : q p = true := hq p hpm
      simp [List.filter_cons, hqp, List.find?_cons, hpm]
    | false =>
      cases hqp : q p with
      | true => simpa [List.filter_cons, hqp, List.find?_cons, hpm] using ih
      | false => simpa [List.filter_cons, hqp, List.find?_cons, hpm] using ih

/-- Specification of the validation pass on a well-formed directory containing the
marker: the resulting directory keeps exactly the marker and the files that decode to
a valid image, and the tally counts the scanned files decoding to `None`. -/
theorem validatePhase_spec (imread : String → DecodeResult) (d : Dir)
    (hnd : (d.map Prod.fst).Nodup) (hmem : "status.txt" ∈ d.map Prod.fst) :
    validatePhase imread d =
      ((d.filter (fun p => (p.1 == "status.txt") || (imread p.2 == DecodeResult.image)),
        ((d.map Prod.fst).erase "status.txt").countP
          (fun n => imread (readFile d n) == DecodeResult.noneResult)), none) := by
  have h1 : validatePhase imread d =
      (validateLoop imread ((d.map Prod.fst).erase "status.txt") d 0, none) := by
    simp only [validatePhase]
    rw [if_pos hmem]
  have hns : ((d.map Prod.fst).erase "status.txt").Nodup := hnd.erase _
  have hsub : ∀ m ∈ (d.map Prod.fst).erase "status.txt", isfile d m = true := by
    intro m hm
    exact (isfile_iff_mem d m).mpr (List.mem_of_mem_erase hm)
  rw [h1, validateLoop_spec imread _ d 0 hnd hns hsub]
  have hpred : d.filter
        (fun p => !(((d.map Prod.fst).erase "status.txt").contains p.1) ||
          (imread p.2 == DecodeResult.image)) =
      d.filter (fun p => (p.1 == "status.txt") || (imread p.2 == DecodeResult.image)) := by
    apply List.filter_congr
    intro p hp
    have hpn : p.1 ∈ d.map Prod.fst := List.mem_map.mpr ⟨p, hp, rfl⟩
    by_cases hpm : p.1 = "status.txt"
    · have hnot : p.1 ∉ (d.map Prod.fst).erase "status.txt" := by
        rw [hpm]
        exact List.Nodup.not_mem_erase hnd
      have hc : ((d.map Prod.fst).erase "status.txt").contains p.1 = false :=
        (contains_eq_false_iff _ _).mpr hnot
      rw [hc]
      simp [hpm]
    · have hin : p.1 ∈ (d.map Prod.fst).erase "status.txt" :=
        (List.Nodup.mem_erase_iff hnd).mpr ⟨hpm, hpn⟩
      have hc : ((d.map Prod.fst).erase "status.txt").contains p.1 = true :=
        (contains_iff_mem _ _).mpr hin
      rw [hc]
      simp [hpm]
  rw [hpred, Nat.zero_add]

/-! ### Collection phase lemmas -/

theorem hiddenName_marker : hiddenName "status.txt" = false := rfl

theorem setupDir_none : setupDir none = ([("status.txt", "NOK")], ["NOK"], false) := rfl

theorem setupDir_some_marker (d : Dir) (h : isfile d "status.txt" = true) :
    setupDir (some d) = (d, [], false) := by
  simp [setupDir, h]

theorem setupDir_some_no_marker (d : Dir) (h : isfile d "status.txt" = false) :
    setupDir (some d) = (d ++ [("status.txt", "NOK")], ["NOK"], true) := by
  simp [setupDir, h, writeFile_of_not_isfile d _ _ h]

theorem isfile_marker_setupDir (dir? : Option Dir) :
    isfile (setupDir dir?).1 "status.txt" = true := by
  cases dir? with
  | none => rfl
  | some d =>
    cases h : isfile d "status.txt" with
    | true => rw [setupDir_some_marker d h]; exact h
    | false =>
      rw [setupDir_some_no_marker d h, isfile_append, h]
      rfl

/-- When `collect_images` ends up true (lines 29-35), the collection branch runs:
purge, download loop, final `'OK'` marker write. -/
theorem collectPhase_collect (fetch : String → FetchResult) (p m : String)
    (dir? : Option Dir) (p1 : Option String)
    (hcol : (setupDir dir?).2.2 = true ∨ strip (readFile (setupDir dir?).1 "status.txt") ≠ "OK") :
    collectPhase fetch p m dir? p1 =
      (match downloadLoop fetch p (splitNl (strip m)) (purge (setupDir dir?).1) 0 p1 0 with
      | ((d3, total, p1x, skipped), some e) =>
          ⟨d3, p1x, true, some (purge (setupDir dir?).1), total, skipped,
            (setupDir dir?).2.1, some e⟩
      | ((d3, total, p1x, skipped), none) =>
          ⟨writeFile d3 "status.txt" "OK", p1x, true, some (purge (setupDir dir?).1), total,
            skipped, (setupDir dir?).2.1 ++ ["OK"], none⟩) := by
  have hb : ((setupDir dir?).2.2 ||
      (strip (readFile (setupDir dir?).1 "status.txt") != "OK")) = true := by
    rcases hcol with h | h
    · rw [h, Bool.true_or]
    · rw [show (strip (readFile (setupDir dir?).1 "status.txt") != "OK") = true from bne_iff_ne.mpr h, Bool.or_true]
  simp only [collectPhase]
  rw [if_pos hb]

/-- When the marker exists and its stripped content is exactly `"OK"`, the collection
branch is skipped (lines 33-38). -/
theorem collectPhase_no_collect (fetch : String → FetchResult) (p m : String)
    (dir? : Option Dir) (p1 : Option String)
    (h1 : (setupDir dir?).2.2 = false)
    (h2 : strip (readFile (setupDir dir?).1 "status.txt") = "OK") :
    collectPhase fetch p m dir? p1 =
      ⟨(setupDir dir?).1, p1, false, none, 0, 0, (setupDir dir?).2.1, none⟩ := by
  have hb : ((setupDir dir?).2.2 ||
      (strip (readFile (setupDir dir?).1 "status.txt") != "OK")) = false := by
    rw [h1, h2, Bool.false_or, bne_self_eq_false]
  simp only [collectPhase]
  rw [if_neg (by rw [hb]; exact Bool.false_ne_true)]

/-! ### Nodup and marker preservation -/

theorem setupDir_nodup (dir? : Option Dir)
    (hnd : ∀ d0, dir? = some d0 → (d0.map Prod.fst).Nodup) :
    (((setupDir dir?).1).map Prod.fst).Nodup := by
  cases dir? with
  | none => simp [setupDir_none]
  | some d =>
    have hd := hnd d rfl
    cases h : isfile d "status.txt" with
    | true => rw [setupDir_some_marker d h]; exact hd
    | false =>
      rw [setupDir_some_no_marker d h, ← writeFile_of_not_isfile d _ _ h]
      exact nodup_names_writeFile d _ _ hd

theorem downloadLoop_nodup (fetch : String → FetchResult) (p : String) :
    ∀ (urls : List String) (d : Dir) (t : Nat) (p1 : Option String) (s : Nat),
      (d.map Prod.fst).Nodup →
      (((downloadLoop fetch p urls d t p1 s).1.1).map Prod.fst).Nodup := by
  intro urls
  induction urls with
  | nil => intro d t p1 s h; exact h
  | cons u rest ih =>
    intro d t p1 s h
    simp only [downloadLoop]
    cases hf : fetch u with
    | success c => exact ih _ _ _ _ (nodup_names_writeFile d _ _ h)
    | connectionError =>
      cases p1 with
      | none => exact h
      | some v => exact ih d t (some v) (s + 1) h
    | otherError => exact h

theorem validatePhase_keeps_marker (imread : String → DecodeResult) (d : Dir)
    (hnd : (d.map Prod.fst).Nodup) (hmem : "status.txt" ∈ d.map Prod.fst) :
    readFile (validatePhase imread d).1.1 "status.txt" = readFile d "status.txt" ∧
    "status.txt" ∈ ((validatePhase imread d).1.1).map Prod.fst ∧
    (validatePhase imread d).2 = none ∧
    (((validatePhase imread d).1.1).map Prod.fst).Nodup := by
  rw [validatePhase_spec imread d hnd hmem]
  refine ⟨?_, ?_, rfl, ?_⟩
  · rw [readFile, readFile, find?_filter_of_name]
    intro q hq
    rw [hq]
    rfl
  · have hentry : ("status.txt", readFile d "status.txt") ∈ d :=
      entry_of_isfile d _ ((isfile_iff_mem d _).mpr hmem)
    apply List.mem_map.mpr
    refine ⟨("status.txt", readFile d "status.txt"), ?_, rfl⟩
    apply List.mem_filter.mpr
    exact ⟨hentry, by simp⟩
  · exact nodup_names_filter d _ hnd

theorem collectPhase_didCollect_of_cond (fetch : String → FetchResult) (p m : String)
    (dir? : Option Dir) (p1 : Option String)
    (hcol : (setupDir dir?).2.2 = true ∨ strip (readFile (setupDir dir?).1 "status.txt") ≠ "OK") :
    (collectPhase fetch p m dir? p1).didCollect = true := by
  rw [collectPhase_collect fetch p m dir? p1 hcol]
  rcases hdl : downloadLoop fetch p (splitNl (strip m)) (purge (setupDir dir?).1) 0 p1 0 with
    ⟨⟨d3, total, p1x, skipped⟩, e?⟩
  cases e? <;> rfl

theorem collectPhase_didCollect_of_no_marker (fetch : String → FetchResult) (p m : String)
    (d : Dir) (p1 : Option String) (h : isfile d "status.txt" = false) :
    (collectPhase fetch p m (some d) p1).didCollect = true := by
  apply collectPhase_didCollect_of_cond
  left
  rw [setupDir_some_no_marker d h]

theorem length_filter_add_not (q : String × String → Bool) (l : Dir) :
    (l.filter q).length + (l.filter (fun a => !(q a))).length = l.length := by
  induction l with
  | nil => rfl
  | cons a as ih =>
    cases hq : q a with
    | true => simp [List.filter_cons, hq]; omega
    | false => simp [List.filter_cons, hq]; omega

/-! ### Claim theorems -/

/-- C1 (code bug): the spec says a connection-level error during download is logged
and skipped without aborting the batch, but when the first download attempt of the
run fails with `requests.ConnectionError`, the `except` handler's log message
references `p_1` before any assignment exists, raising `NameError` and aborting the
whole run.  This theorem evaluates the collector at such an input: one class needing
collection whose first URL raises a connection error. -/
theorem C1_first_connection_error_raises_NameError :
    (mainRun ⟨fun _ => FetchResult.connectionError, fun _ => DecodeResult.image⟩ "data" true
      ⟨fun _ => some "u", fun _ => none⟩).2.2 = some (PyErr.nameError "p_1") := by decide

/-- C3 (code bug): in the validation pass, a file whose decode raises `cv2.error` is
deleted, but the tally is not incremented (`total += 1` only runs in the `None`
branch), so the reported deleted-count (here 0) differs from the number of files
actually deleted (here 1: `00000000.jpg` is gone from the resulting directory). -/
theorem C3_cvError_file_deleted_but_not_counted :
    validatePhase (fun s => if s = "X" then DecodeResult.cvError else DecodeResult.image)
      [("status.txt", "OK"), ("00000000.jpg", "X")] =
      (([("status.txt", "OK")], 0), none) := by decide

/-- C4 (counterexample): at directory creation the collector writes the token `"NOK"`
to the marker, which is neither `"OK"` nor `"NOT-OK"`; the claim that every marker
write is exactly the token `OK` or the token `NOT-OK` fails on this run. -/
theorem C4_counterexample_marker_token_is_NOK :
    (collectPhase (fun _ => FetchResult.success "img") "p" "u" none none).markerWrites
        = ["NOK", "OK"] ∧
      ("NOK" : String) ≠ "NOT-OK" ∧ ("NOK" : String) ≠ "OK" := by decide

/-- C8 (counterexample): immediately after the purge — an intermediate point of the
collection phase, before the final marker write — the marker file does not exist at
all, because `glob(class_dir + "/*")` matches `status.txt` and the purge removes it;
so the marker is not "left at NOT-OK" at that point. -/
theorem C8_counterexample_marker_deleted_by_purge :
    (collectPhase (fun _ => FetchResult.success "img") "p" "u"
        (some [("status.txt", "NOK"), ("00000000.jpg", "Y")]) none).preDownloadDir
        = some ([] : Dir) ∧
    isfile ([] : Dir) "status.txt" = false := by decide

/-- C5: whenever the stripped marker content is not exactly `"OK"` — including when the
marker was forced to a non-OK value after a prior OK run — the collection branch is
taken and first deletes every existing file of the class directory (files the collector
can produce are never dot-files, the hypothesis), so the pre-download state is the
empty directory, before re-downloading from the manifest. -/
theorem C5_non_OK_marker_purges_before_redownload (fetch : String → FetchResult)
    (p m : String) (d : Dir) (p1 : Option String)
    (hnh : ∀ q ∈ d, hiddenName q.1 = false)
    (hnok : strip (readFile d "status.txt") ≠ "OK") :
    (collectPhase fetch p m (some d) p1).didCollect = true ∧
    (collectPhase fetch p m (some d) p1).preDownloadDir = some ([] : Dir) := by
  have hpurge : purge (setupDir (some d)).1 = [] := by
    cases hm : isfile d "status.txt" with
    | true =>
      rw [setupDir_some_marker d hm]
      exact purge_eq_nil d hnh
    | false =>
      rw [setupDir_some_no_marker d hm]
      apply purge_eq_nil
      intro q hq
      rcases List.mem_append.mp hq with h | h
      · exact hnh q h
      · rw [List.mem_singleton.mp h]
        exact hiddenName_marker
  have hcol : (setupDir (some d)).2.2 = true ∨
      strip (readFile (setupDir (some d)).1 "status.txt") ≠ "OK" := by
    cases hm : isfile d "status.txt" with
    | true =>
      right
      rw [setupDir_some_marker d hm]
      exact hnok
    | false =>
      left
      rw [setupDir_some_no_marker d hm]
  refine ⟨collectPhase_didCollect_of_cond fetch p m (some d) p1 hcol, ?_⟩
  rw [collectPhase_collect fetch p m (some d) p1 hcol]
  rcases hdl : downloadLoop fetch p (splitNl (strip m)) (purge (setupDir (some d)).1) 0 p1 0 with
    ⟨⟨d3, total, p1x, sk⟩, e?⟩
  cases e? <;> simp [hpurge]

/-- Witness for C5 at a concrete directory holding a decodable image and a forced
non-OK marker. -/
theorem C5_witness :
    (collectPhase (fun _ => FetchResult.success "z") "p" "u"
        (some [("status.txt", "NOK"), ("00000000.jpg", "img")]) none).didCollect = true ∧
    (collectPhase (fun _ => FetchResult.success "z") "p" "u"
        (some [("status.txt", "NOK"), ("00000000.jpg", "img")]) none).preDownloadDir
      = some ([] : Dir) :=
  C5_non_OK_marker_purges_before_redownload (fun _ => FetchResult.success "z") "p" "u"
    [("status.txt", "NOK"), ("00000000.jpg", "img")] none (by decide) (by decide)

/-- C6: when the marker exists and its stripped content is exactly `"OK"`, the
collection step performs no download, no purge and no marker write, and the whole
class processing is exactly the validation scan applied to the unmodified directory. -/
theorem C6_marker_OK_runs_validation_only (w : World) (cn p m : String) (d : Dir)
    (p1 : Option String) (hm : isfile d "status.txt" = true)
    (hok : strip (readFile d "status.txt") = "OK") :
    processClass w cn p (some m) (some d) p1 =
      ⟨some (validatePhase w.imread d).1.1, p1, false, 0, 0,
        (validatePhase w.imread d).1.2, (validatePhase w.imread d).2⟩ := by
  have hs := setupDir_some_marker d hm
  have h1 : (setupDir (some d)).2.2 = false := by rw [hs]
  have h2 : strip (readFile (setupDir (some d)).1 "status.txt") = "OK" := by
    rw [hs]
    exact hok
  have hcp : collectPhase w.fetch p m (some d) p1 = ⟨d, p1, false, none, 0, 0, [], none⟩ := by
    rw [collectPhase_no_collect w.fetch p m (some d) p1 h1 h2, hs]
  simp only [processClass, hcp]

/-- Witness for C6 at a concrete directory with an OK marker and one image file. -/
theorem C6_witness :
    processClass ⟨fun _ => FetchResult.success "z", fun _ => DecodeResult.image⟩
        "sunglasses" "p" (some "u") (some [("status.txt", "OK"), ("00000000.jpg", "img")]) none =
      ⟨some (validatePhase (fun _ => DecodeResult.image)
          [("status.txt", "OK"), ("00000000.jpg", "img")]).1.1, none, false, 0, 0,
        (validatePhase (fun _ => DecodeResult.image)
          [("status.txt", "OK"), ("00000000.jpg", "img")]).1.2,
        (validatePhase (fun _ => DecodeResult.image)
          [("status.txt", "OK"), ("00000000.jpg", "img")]).2⟩ :=
  C6_marker_OK_runs_validation_only
    ⟨fun _ => FetchResult.success "z", fun _ => DecodeResult.image⟩ "sunglasses" "p" "u"
    [("status.txt", "OK"), ("00000000.jpg", "img")] none (by decide) (by decide)

theorem setupDir_writes_cases (dir? : Option Dir) :
    (setupDir dir?).2.1 = [] ∨ (setupDir dir?).2.1 = ["NOK"] := by
  cases dir? with
  | none => right; rfl
  | some d =>
    cases h : isfile d "status.txt" with
    | true => left; rw [setupDir_some_marker d h]
    | false => right; rw [setupDir_some_no_marker d h]

/-- C4 (amended): every content the collector writes to the marker is `"NOK"` or
`"OK"` (not `"NOT-OK"`): `"NOK"` is written first when the class directory or the
marker file is freshly created, and `"OK"` is the last write when the download loop
completes without an exception. -/
theorem C4_amended_marker_writes_NOK_or_OK (fetch : String → FetchResult) (p m : String)
    (dir? : Option Dir) (p1 : Option String) :
    (∀ s ∈ (collectPhase fetch p m dir? p1).markerWrites, s = "NOK" ∨ s = "OK") ∧
    (dir? = none → (collectPhase fetch p m dir? p1).markerWrites.head? = some "NOK") ∧
    (∀ d, dir? = some d → isfile d "status.txt" = false →
      (collectPhase fetch p m dir? p1).markerWrites.head? = some "NOK") ∧
    ((collectPhase fetch p m dir? p1).err = none →
      (collectPhase fetch p m dir? p1).didCollect = true →
      (collectPhase fetch p m dir? p1).markerWrites.getLast? = some "OK") := by
  have hwrites := setupDir_writes_cases dir?
  cases hb : ((setupDir dir?).2.2 ||
      (strip (readFile (setupDir dir?).1 "status.txt") != "OK")) with
  | false =>
    have h1 : (setupDir dir?).2.2 = false := by
      rcases Bool.or_eq_false_iff.mp hb with ⟨ha, _⟩
      exact ha
    have h2 : strip (readFile (setupDir dir?).1 "status.txt") = "OK" := by
      rcases Bool.or_eq_false_iff.mp hb with ⟨_, hc⟩
      exact bne_eq_false_iff_eq.mp hc
    rw [collectPhase_no_collect fetch p m dir? p1 h1 h2]
    refine ⟨?_, ?_, ?_, ?_⟩
    · intro s hs
      rcases hwrites with hw | hw <;> rw [hw] at hs
      · cases hs
      · left
        exact (List.mem_singleton.mp hs)
    · intro hnone
      rw [hnone] at hb ⊢
      exfalso
      rw [setupDir_none] at hb
      exact absurd hb (by decide)
    · intro d hd hmiss
      rw [hd] at hb
      rw [setupDir_some_no_marker d hmiss] at hb
      simp at hb
    · intro _ hcollect
      simp at hcollect
  | true =>
    have hcol : (setupDir dir?).2.2 = true ∨
        strip (readFile (setupDir dir?).1 "status.txt") ≠ "OK" := by
      rw [Bool.or_eq_true] at hb
      rcases hb with h | h
      · exact Or.inl h
      · exact Or.inr (bne_iff_ne.mp h)
    rw [collectPhase_collect fetch p m dir? p1 hcol]
    rcases hdl : downloadLoop fetch p (splitNl (strip m)) (purge (setupDir dir?).1) 0 p1 0 with
      ⟨⟨d3, total, p1x, sk⟩, e?⟩
    cases e? with
    | some e =>
      refine ⟨?_, ?_, ?_, ?_⟩
      · intro s hs
        rcases hwrites with hw | hw <;> simp only [hw] at hs
        · cases hs
        · left
          exact (List.mem_singleton.mp hs)
      · intro hnone
        rw [hnone]
        rfl
      · intro d hd hmiss
        rw [hd]
        simp [setupDir_some_no_marker d hmiss]
      · intro hc
        exact absurd hc (by simp)
    | none =>
      refine ⟨?_, ?_, ?_, ?_⟩
      · intro s hs
        simp only [CollectResult.markerWrites] at hs
        rcases List.mem_append.mp hs with h | h
        · rcases hwrites with hw | hw <;> rw [hw] at h
          · cases h
          · left
            exact (List.mem_singleton.mp h)
        · right
          exact (List.mem_singleton.mp h)
      · intro hnone
        rw [hnone]
        rfl
      · intro d hd hmiss
        rw [hd]
        simp [setupDir_some_no_marker d hmiss]
      · intro _ _
        simp only [CollectResult.markerWrites]
        exact List.getLast?_concat _
/-- Witness for C4 (amended) at a concrete fresh class. -/
theorem C4_amended_witness :
    (∀ s ∈ (collectPhase (fun _ => FetchResult.success "z") "p" "u" none none).markerWrites,
        s = "NOK" ∨ s = "OK") ∧
    ((none : Option Dir) = none →
      (collectPhase (fun _ => FetchResult.success "z") "p" "u" none none).markerWrites.head?
        = some "NOK") ∧
    (∀ d, (none : Option Dir) = some d → isfile d "status.txt" = false →
      (collectPhase (fun _ => FetchResult.success "z") "p" "u" none none).markerWrites.head?
        = some "NOK") ∧
    ((collectPhase (fun _ => FetchResult.success "z") "p" "u" none none).err = none →
      (collectPhase (fun _ => FetchResult.success "z") "p" "u" none none).didCollect = true →
      (collectPhase (fun _ => FetchResult.success "z") "p" "u" none none).markerWrites.getLast?
        = some "OK") :=
  C4_amended_marker_writes_NOK_or_OK (fun _ => FetchResult.success "z") "p" "u" none none

/-- C8 (amended): at every intermediate point of the collection phase — after the
purge and after each download-loop step, before the final marker write — the marker
file is absent (the purge deleted it together with the other files), and a collector
run starting from such an intermediate directory re-collects the class from scratch. -/
theorem C8_amended_marker_absent_mid_collection (fetch f2 : String → FetchResult)
    (p p2 m m2 : String) (dir? : Option Dir) (p1 q1 : Option String) (pre suf : List String)
    (_hcol : (setupDir dir?).2.2 = true ∨
      strip (readFile (setupDir dir?).1 "status.txt") ≠ "OK")
    (_hsplit : splitNl (strip m) = pre ++ suf) :
    isfile ((downloadLoop fetch p pre (purge (setupDir dir?).1) 0 p1 0).1.1) "status.txt"
        = false ∧
    (collectPhase f2 p2 m2
        (some ((downloadLoop fetch p pre (purge (setupDir dir?).1) 0 p1 0).1.1)) q1).didCollect
      = true := by
  have habs : isfile ((downloadLoop fetch p pre (purge (setupDir dir?).1) 0 p1 0).1.1)
      "status.txt" = false :=
    downloadLoop_keeps_marker_absent fetch p pre (purge (setupDir dir?).1) 0 p1 0
      (isfile_purge_marker (setupDir dir?).1)
  exact ⟨habs, collectPhase_didCollect_of_no_marker f2 p2 m2 _ q1 habs⟩

/-- Witness for C8 (amended): a run over a two-URL manifest stopped after the first
download. -/
theorem C8_amended_witness :
    isfile ((downloadLoop (fun _ => FetchResult.success "z") "p" ["u1"]
        (purge (setupDir (some [("status.txt", "NOK")])).1) 0 none 0).1.1) "status.txt"
        = false ∧
    (collectPhase (fun _ => FetchResult.success "z") "p" "u1\nu2"
        (some ((downloadLoop (fun _ => FetchResult.success "z") "p" ["u1"]
          (purge (setupDir (some [("status.txt", "NOK")])).1) 0 none 0).1.1)) none).didCollect
      = true :=
  C8_amended_marker_absent_mid_collection (fun _ => FetchResult.success "z")
    (fun _ => FetchResult.success "z") "p" "p" "u1\nu2" "u1\nu2"
    (some [("status.txt", "NOK")]) none none ["u1"] ["u2"] (by decide) (by decide)

/-- C2: for a class needing collection (fresh directory, missing marker, or non-OK
marker) whose manifest parses to N URLs that all fetch successfully, the collection
phase leaves the class directory holding exactly the N downloaded images named
`jpgName 0 .. jpgName (N-1)` — `00000000.jpg` onwards — plus the `status.txt` marker
reading `OK`; the collected count is N, the skipped count 0, and all names are
pairwise distinct. -/
theorem C2_all_success_collection (fetch : String → FetchResult) (p m : String)
    (dir? : Option Dir) (p1 : Option String) (cf : String → String)
    (hsucc : ∀ u ∈ splitNl (strip m), fetch u = FetchResult.success (cf u))
    (hcol : (setupDir dir?).2.2 = true ∨
      strip (readFile (setupDir dir?).1 "status.txt") ≠ "OK")
    (hnh : ∀ dd, dir? = some dd → ∀ q ∈ dd, hiddenName q.1 = false) :
    ∃ q : Option String,
      collectPhase fetch p m dir? p1 =
        ⟨List.zipWith (fun i v => (jpgName i, cf v))
            (List.range (splitNl (strip m)).length) (splitNl (strip m)) ++
            [("status.txt", "OK")],
          q, true, some ([] : Dir), (splitNl (strip m)).length, 0,
          (setupDir dir?).2.1 ++ ["OK"], none⟩ ∧
      readFile (collectPhase fetch p m dir? p1).dir "status.txt" = "OK" ∧
      (collectPhase fetch p m dir? p1).dir.length = (splitNl (strip m)).length + 1 ∧
      (((collectPhase fetch p m dir? p1).dir).map Prod.fst).Nodup := by
  have hpurge : purge (setupDir dir?).1 = [] := by
    cases dir? with
    | none => decide
    | some dd =>
      have hnh' := hnh dd rfl
      cases hm : isfile dd "status.txt" with
      | true =>
        rw [setupDir_some_marker dd hm]
        exact purge_eq_nil dd hnh'
      | false =>
        rw [setupDir_some_no_marker dd hm]
        apply purge_eq_nil
        intro qq hq
        rcases List.mem_append.mp hq with h | h
        · exact hnh' qq h
        · rw [List.mem_singleton.mp h]
          exact hiddenName_marker
  obtain ⟨q, hq⟩ := downloadLoop_success_spec fetch p cf (splitNl (strip m)) [] 0 p1 0 hsucc
    (fun j _ => rfl)
  have hfun : (fun i v => (jpgName (0 + i), cf v)) = (fun i v => (jpgName i, cf v)) := by
    funext i v
    rw [Nat.zero_add]
  rw [hfun] at hq
  simp only [List.nil_append, Nat.zero_add] at hq
  have habs : isfile (List.zipWith (fun i v => (jpgName i, cf v))
      (List.range (splitNl (strip m)).length) (splitNl (strip m))) "status.txt" = false := by
    have h0 := downloadLoop_keeps_marker_absent fetch p (splitNl (strip m)) [] 0 p1 0 rfl
    rw [hq] at h0
    exact h0
  have hnodup : ((List.zipWith (fun i v => (jpgName i, cf v))
      (List.range (splitNl (strip m)).length) (splitNl (strip m))).map Prod.fst).Nodup := by
    have h0 := downloadLoop_nodup fetch p (splitNl (strip m)) [] 0 p1 0 List.nodup_nil
    rw [hq] at h0
    exact h0
  have hmain : collectPhase fetch p m dir? p1 =
      ⟨List.zipWith (fun i v => (jpgName i, cf v))
          (List.range (splitNl (strip m)).length) (splitNl (strip m)) ++
          [("status.txt", "OK")],
        q, true, some ([] : Dir), (splitNl (strip m)).length, 0,
        (setupDir dir?).2.1 ++ ["OK"], none⟩ := by
    rw [collectPhase_collect fetch p m dir? p1 hcol, hpurge, hq]
    simp only [writeFile_of_not_isfile _ _ _ habs]
  refine ⟨q, hmain, ?_, ?_, ?_⟩
  · rw [hmain]
    rw [← writeFile_of_not_isfile _ _ _ habs]
    exact readFile_writeFile_self _ _ _
  · rw [hmain]
    simp [List.length_zipWith]
  · rw [hmain]
    rw [← writeFile_of_not_isfile _ _ _ habs]
    exact nodup_names_writeFile _ _ _ hnodup

/-- Witness for C2 on a two-URL manifest with both fetches succeeding. -/
theorem C2_witness :
    ∃ q : Option String,
      collectPhase (fun _ => FetchResult.success "img") "p" "u1\nu2" none none =
        ⟨List.zipWith (fun i v => (jpgName i, (fun _ => "img") v))
            (List.range (splitNl (strip "u1\nu2")).length) (splitNl (strip "u1\nu2")) ++
            [("status.txt", "OK")],
          q, true, some ([] : Dir), (splitNl (strip "u1\nu2")).length, 0,
          (setupDir none).2.1 ++ ["OK"], none⟩ ∧
      readFile (collectPhase (fun _ => FetchResult.success "img") "p" "u1\nu2" none none).dir
          "status.txt" = "OK" ∧
      (collectPhase (fun _ => FetchResult.success "img") "p" "u1\nu2" none none).dir.length
          = (splitNl (strip "u1\nu2")).length + 1 ∧
      (((collectPhase (fun _ => FetchResult.success "img") "p" "u1\nu2" none none).dir).map
          Prod.fst).Nodup :=
  C2_all_success_collection (fun _ => FetchResult.success "img") "p" "u1\nu2" none none
    (fun _ => "img") (by decide) (by decide) (fun dd h => Option.noConfusion h)

/-- C7: on a well-formed class directory containing the marker, one validation pass
keeps exactly the marker and the decodable files and removes exactly the undecodable
ones (kept + removed = total), and a second validation pass on the result removes
zero further files and reports zero deletions. -/
theorem C7_validation_exact_and_idempotent (imread : String → DecodeResult) (d : Dir)
    (hnd : (d.map Prod.fst).Nodup) (hmem : "status.txt" ∈ d.map Prod.fst) :
    (validatePhase imread d).1.1 =
        d.filter (fun p => (p.1 == "status.txt") || (imread p.2 == DecodeResult.image)) ∧
    (validatePhase imread d).2 = none ∧
    ((validatePhase imread d).1.1).length +
        (d.filter (fun p =>
          !((p.1 == "status.txt") || (imread p.2 == DecodeResult.image)))).length
      = d.length ∧
    validatePhase imread ((validatePhase imread d).1.1) =
      (((validatePhase imread d).1.1, 0), none) := by
  have hspec := validatePhase_spec imread d hnd hmem
  have hkeep := validatePhase_keeps_marker imread d hnd hmem
  have hdir : (validatePhase imread d).1.1 =
      d.filter (fun p => (p.1 == "status.txt") || (imread p.2 == DecodeResult.image)) := by
    rw [hspec]
  refine ⟨hdir, by rw [hspec], ?_, ?_⟩
  · rw [hdir]
    exact length_filter_add_not _ d
  · have hnd' := hkeep.2.2.2
    have hmem' := hkeep.2.1
    have hspec2 := validatePhase_spec imread ((validatePhase imread d).1.1) hnd' hmem'
    rw [hspec2]
    have hall : ∀ p ∈ (validatePhase imread d).1.1,
        ((p.1 == "status.txt") || (imread p.2 == DecodeResult.image)) = true := by
      intro p hp
      rw [hdir] at hp
      exact (List.mem_filter.mp hp).2
    have hfix : ((validatePhase imread d).1.1).filter
        (fun p => (p.1 == "status.txt") || (imread p.2 == DecodeResult.image)) =
        (validatePhase imread d).1.1 := List.filter_eq_self.mpr hall
    rw [hfix]
    have hzero : ((((validatePhase imread d).1.1).map Prod.fst).erase "status.txt").countP
        (fun n => imread (readFile ((validatePhase imread d).1.1) n)
          == DecodeResult.noneResult) = 0 := by
      rw [List.countP_eq_zero]
      intro n hn
      have hne : n ≠ "status.txt" := ((List.Nodup.mem_erase_iff hnd').mp hn).1
      have hmemn : n ∈ ((validatePhase imread d).1.1).map Prod.fst :=
        List.mem_of_mem_erase hn
      have hentry : (n, readFile ((validatePhase imread d).1.1) n) ∈
          (validatePhase imread d).1.1 :=
        entry_of_isfile _ _ ((isfile_iff_mem _ _).mpr hmemn)
      have hkeepn := hall _ hentry
      have hne' : ((n : String) == "status.txt") = false := by
        simpa using hne
      rw [hne', Bool.false_or] at hkeepn
      have himg : imread (readFile ((validatePhase imread d).1.1) n) = DecodeResult.image := by
        simpa using hkeepn
      rw [himg]
      simp
    rw [hzero]

/-- Witness for C7 on a directory with one decodable and one undecodable file. -/
theorem C7_witness :
    (validatePhase (fun s => if s = "bad" then DecodeResult.noneResult else DecodeResult.image)
        [("status.txt", "OK"), ("00000000.jpg", "good"), ("00000001.jpg", "bad")]).1.1 =
        ([("status.txt", "OK"), ("00000000.jpg", "good"), ("00000001.jpg", "bad")] : Dir).filter
          (fun p => (p.1 == "status.txt") ||
            ((fun s => if s = "bad" then DecodeResult.noneResult else DecodeResult.image) p.2
              == DecodeResult.image)) ∧
    (validatePhase (fun s => if s = "bad" then DecodeResult.noneResult else DecodeResult.image)
        [("status.txt", "OK"), ("00000000.jpg", "good"), ("00000001.jpg", "bad")]).2 = none ∧
    ((validatePhase (fun s => if s = "bad" then DecodeResult.noneResult else DecodeResult.image)
        [("status.txt", "OK"), ("00000000.jpg", "good"), ("00000001.jpg", "bad")]).1.1).length +
        (([("status.txt", "OK"), ("00000000.jpg", "good"), ("00000001.jpg", "bad")] : Dir).filter
          (fun p => !((p.1 == "status.txt") ||
            ((fun s => if s = "bad" then DecodeResult.noneResult else DecodeResult.image) p.2
              == DecodeResult.image)))).length
      = ([("status.txt", "OK"), ("00000000.jpg", "good"), ("00000001.jpg", "bad")] : Dir).length ∧
    validatePhase (fun s => if s = "bad" then DecodeResult.noneResult else DecodeResult.image)
        ((validatePhase (fun s => if s = "bad" then DecodeResult.noneResult else DecodeResult.image)
          [("status.txt", "OK"), ("00000000.jpg", "good"), ("00000001.jpg", "bad")]).1.1) =
      (((validatePhase (fun s => if s = "bad" then DecodeResult.noneResult else DecodeResult.image)
          [("status.txt", "OK"), ("00000000.jpg", "good"), ("00000001.jpg", "bad")]).1.1, 0),
        none) :=
  C7_validation_exact_and_idempotent
    (fun s => if s = "bad" then DecodeResult.noneResult else DecodeResult.image)
    [("status.txt", "OK"), ("00000000.jpg", "good"), ("00000001.jpg", "bad")]
    (by decide) (by decide)

/-- C9: a missing dataset root raises `ValueError` (the spec's `ConfigurationError`)
at startup, before any class is processed and with the filesystem untouched; a missing
manifest for the class at the head of the remaining class list raises `ValueError`
naming that class, aborting the whole run with the filesystem untouched from that
point on (no later class is processed). -/
theorem C9_config_errors_abort (w : World) (dd : String) (st st2 : RootState)
    (c : String) (rest : List String) (p1 : Option String)
    (hmiss : st2.manifests c = none) :
    mainRun w dd false st =
      (st, none, some (PyErr.valueError
        "please create dataset folder and place download scripts inside it")) ∧
    (runClasses w dd (c :: rest) st2 p1).2.2
      = some (PyErr.valueError ("no " ++ c ++ " file")) ∧
    (runClasses w dd (c :: rest) st2 p1).2.1 = p1 ∧
    (∀ c', (runClasses w dd (c :: rest) st2 p1).1.dirs c' = st2.dirs c') ∧
    (∀ c', (runClasses w dd (c :: rest) st2 p1).1.manifests c' = st2.manifests c') := by
  have hrun : runClasses w dd (c :: rest) st2 p1 =
      (⟨st2.manifests, fun c' => if c' = c then st2.dirs c else st2.dirs c'⟩, p1,
        some (PyErr.valueError ("no " ++ c ++ " file"))) := by
    simp only [runClasses, hmiss, processClass]
  refine ⟨rfl, ?_, ?_, ?_, ?_⟩
  · rw [hrun]
  · rw [hrun]
  · intro c'
    rw [hrun]
    by_cases hc : c' = c
    · subst hc
      simp
    · simp [hc]
  · intro c'
    rw [hrun]

/-- Witness for C9 with an empty root state. -/
theorem C9_witness :
    mainRun ⟨fun _ => FetchResult.success "z", fun _ => DecodeResult.image⟩ "data" false
        ⟨fun _ => none, fun _ => none⟩ =
      (⟨fun _ => none, fun _ => none⟩, none, some (PyErr.valueError
        "please create dataset folder and place download scripts inside it")) ∧
    (runClasses ⟨fun _ => FetchResult.success "z", fun _ => DecodeResult.image⟩ "data"
        ("sunglasses" :: ["jeans", "dress"]) ⟨fun _ => none, fun _ => none⟩ none).2.2
      = some (PyErr.valueError ("no " ++ "sunglasses" ++ " file")) ∧
    (runClasses ⟨fun _ => FetchResult.success "z", fun _ => DecodeResult.image⟩ "data"
        ("sunglasses" :: ["jeans", "dress"]) ⟨fun _ => none, fun _ => none⟩ none).2.1 = none ∧
    (∀ c', (runClasses ⟨fun _ => FetchResult.success "z", fun _ => DecodeResult.image⟩ "data"
        ("sunglasses" :: ["jeans", "dress"]) ⟨fun _ => none, fun _ => none⟩ none).1.dirs c'
      = (⟨fun _ => none, fun _ => none⟩ : RootState).dirs c') ∧
    (∀ c', (runClasses ⟨fun _ => FetchResult.success "z", fun _ => DecodeResult.image⟩ "data"
        ("sunglasses" :: ["jeans", "dress"]) ⟨fun _ => none, fun _ => none⟩ none).1.manifests c'
      = (⟨fun _ => none, fun _ => none⟩ : RootState).manifests c') :=
  C9_config_errors_abort ⟨fun _ => FetchResult.success "z", fun _ => DecodeResult.image⟩
    "data" ⟨fun _ => none, fun _ => none⟩ ⟨fun _ => none, fun _ => none⟩
    "sunglasses" ["jeans", "dress"] none rfl

/-- A class processing that raises no exception leaves a class directory whose
marker's stripped content is exactly `"OK"` (either the collect branch just wrote
`'OK'`, or the marker already read OK; validation never touches the marker). -/
theorem processClass_marker_ok (w : World) (cn p m : String) (d? : Option Dir)
    (p1 : Option String)
    (hnd : ∀ d0, d? = some d0 → (d0.map Prod.fst).Nodup)
    (hok : (processClass w cn p (some m) d? p1).err = none) :
    ∃ d1, (processClass w cn p (some m) d? p1).dir? = some d1 ∧
      strip (readFile d1 "status.txt") = "OK" := by
  cases hb : ((setupDir d?).2.2 ||
      (strip (readFile (setupDir d?).1 "status.txt") != "OK")) with
  | false =>
    have h1 : (setupDir d?).2.2 = false := (Bool.or_eq_false_iff.mp hb).1
    have h2 : strip (readFile (setupDir d?).1 "status.txt") = "OK" :=
      bne_eq_false_iff_eq.mp (Bool.or_eq_false_iff.mp hb).2
    have hcp := collectPhase_no_collect w.fetch p m d? p1 h1 h2
    have hnds := setupDir_nodup d? hnd
    have hmems : "status.txt" ∈ ((setupDir d?).1).map Prod.fst :=
      (isfile_iff_mem _ _).mp (isfile_marker_setupDir d?)
    have hv := validatePhase_keeps_marker w.imread (setupDir d?).1 hnds hmems
    have hpc : processClass w cn p (some m) d? p1 =
        ⟨some (validatePhase w.imread (setupDir d?).1).1.1, p1, false, 0, 0,
          (validatePhase w.imread (setupDir d?).1).1.2,
          (validatePhase w.imread (setupDir d?).1).2⟩ := by
      simp only [processClass, hcp]
    refine ⟨(validatePhase w.imread (setupDir d?).1).1.1, ?_, ?_⟩
    · rw [hpc]
    · rw [hv.1]
      exact h2
  | true =>
    have hcol : (setupDir d?).2.2 = true ∨
        strip (readFile (setupDir d?).1 "status.txt") ≠ "OK" := by
      rw [Bool.or_eq_true] at hb
      rcases hb with h | h
      · exact Or.inl h
      · exact Or.inr (bne_iff_ne.mp h)
    have hcc := collectPhase_collect w.fetch p m d? p1 hcol
    rcases hdl : downloadLoop w.fetch p (splitNl (strip m)) (purge (setupDir d?).1) 0 p1 0 with
      ⟨⟨d3, total, p1x, sk⟩, e?⟩
    rw [hdl] at hcc
    cases e? with
    | some e =>
      exfalso
      have : (processClass w cn p (some m) d? p1).err = some e := by
        simp only [processClass, hcc]
      rw [hok] at this
      exact Option.noConfusion this
    | none =>
      have hnod3 : (d3.map Prod.fst).Nodup := by
        have h0 := downloadLoop_nodup w.fetch p (splitNl (strip m)) (purge (setupDir d?).1)
          0 p1 0 (nodup_names_filter _ _ (setupDir_nodup d? hnd))
        rw [hdl] at h0
        exact h0
      have hnodw : ((writeFile d3 "status.txt" "OK").map Prod.fst).Nodup :=
        nodup_names_writeFile d3 _ _ hnod3
      have hmemw : "status.txt" ∈ (writeFile d3 "status.txt" "OK").map Prod.fst := by
        apply (isfile_iff_mem _ _).mp
        rw [isfile_writeFile]
        simp
      have hv := validatePhase_keeps_marker w.imread (writeFile d3 "status.txt" "OK") hnodw hmemw
      have hpc : processClass w cn p (some m) d? p1 =
          ⟨some (validatePhase w.imread (writeFile d3 "status.txt" "OK")).1.1, p1x, true,
            total, sk, (validatePhase w.imread (writeFile d3 "status.txt" "OK")).1.2,
            (validatePhase w.imread (writeFile d3 "status.txt" "OK")).2⟩ := by
        simp only [processClass, hcc]
      refine ⟨(validatePhase w.imread (writeFile d3 "status.txt" "OK")).1.1, ?_, ?_⟩
      · rw [hpc]
      · rw [hv.1, readFile_writeFile_self]
        exact strip_OK

/-- C10: the manifest check runs per class at the start of its loop iteration.  When
the `jeans` manifest is missing but `sunglasses` (processed first in the fixed order)
completes without an exception, the run aborts at `jeans` with `ValueError`, while the
`sunglasses` directory on disk is exactly the fully collected-and-validated result of
its processing — with a marker whose stripped content is `"OK"` — and the not-yet
reached `dress` state is untouched. -/
theorem C10_earlier_classes_persist (w : World) (dd : String) (st : RootState) (m0 : String)
    (hs : st.manifests "sunglasses" = some m0)
    (hj : st.manifests "jeans" = none)
    (hnd : ∀ d0, st.dirs "sunglasses" = some d0 → (d0.map Prod.fst).Nodup)
    (hok : (processClass w "sunglasses" (dd ++ "/" ++ "sunglasses") (some m0)
        (st.dirs "sunglasses") none).err = none) :
    (mainRun w dd true st).2.2 = some (PyErr.valueError "no jeans file") ∧
    (mainRun w dd true st).1.dirs "sunglasses" =
      (processClass w "sunglasses" (dd ++ "/" ++ "sunglasses") (some m0)
        (st.dirs "sunglasses") none).dir? ∧
    (∃ d1, (mainRun w dd true st).1.dirs "sunglasses" = some d1 ∧
      strip (readFile d1 "status.txt") = "OK") ∧
    (mainRun w dd true st).1.dirs "dress" = st.dirs "dress" ∧
    (mainRun w dd true st).1.manifests = st.manifests := by
  have h1 : mainRun w dd true st =
      runClasses w dd ["jeans", "dress"]
        ⟨st.manifests, fun c' => if c' = "sunglasses"
          then (processClass w "sunglasses" (dd ++ "/" ++ "sunglasses") (some m0)
            (st.dirs "sunglasses") none).dir?
          else st.dirs c'⟩
        (processClass w "sunglasses" (dd ++ "/" ++ "sunglasses") (some m0)
          (st.dirs "sunglasses") none).p1 := by
    rw [mainRun, if_pos rfl, show classes = ["sunglasses", "jeans", "dress"] from rfl]
    simp only [runClasses, hs, hok]
  have h2 : runClasses w dd ["jeans", "dress"]
      ⟨st.manifests, fun c' => if c' = "sunglasses"
        then (processClass w "sunglasses" (dd ++ "/" ++ "sunglasses") (some m0)
          (st.dirs "sunglasses") none).dir?
        else st.dirs c'⟩
      (processClass w "sunglasses" (dd ++ "/" ++ "sunglasses") (some m0)
        (st.dirs "sunglasses") none).p1 =
      (⟨st.manifests, fun c'' => if c'' = "jeans"
          then (if ("jeans" : String) = "sunglasses"
            then (processClass w "sunglasses" (dd ++ "/" ++ "sunglasses") (some m0)
              (st.dirs "sunglasses") none).dir?
            else st.dirs "jeans")
          else (if c'' = "sunglasses"
            then (processClass w "sunglasses" (dd ++ "/" ++ "sunglasses") (some m0)
              (st.dirs "sunglasses") none).dir?
            else st.dirs c'')⟩,
        (processClass w "sunglasses" (dd ++ "/" ++ "sunglasses") (some m0)
          (st.dirs "sunglasses") none).p1,
        some (PyErr.valueError ("no " ++ "jeans" ++ " file"))) := by
    simp only [runClasses, hj, processClass]
  rw [h1, h2]
  refine ⟨rfl, ?_, ?_, ?_, rfl⟩
  · simp
  · obtain ⟨d1, hd1, hstrip⟩ := processClass_marker_ok w "sunglasses"
      (dd ++ "/" ++ "sunglasses") m0 (st.dirs "sunglasses") none hnd hok
    refine ⟨d1, ?_, hstrip⟩
    simpa using hd1
  · simp

/-- Witness for C10 on a root with a one-URL sunglasses manifest and no jeans
manifest. -/
theorem C10_witness :
    (mainRun ⟨fun _ => FetchResult.success "img", fun _ => DecodeResult.image⟩ "data" true
        ⟨fun c => if c = "sunglasses" then some "u" else none, fun _ => none⟩).2.2
      = some (PyErr.valueError "no jeans file") ∧
    (mainRun ⟨fun _ => FetchResult.success "img", fun _ => DecodeResult.image⟩ "data" true
        ⟨fun c => if c = "sunglasses" then some "u" else none, fun _ => none⟩).1.dirs "sunglasses" =
      (processClass ⟨fun _ => FetchResult.success "img", fun _ => DecodeResult.image⟩
        "sunglasses" ("data" ++ "/" ++ "sunglasses") (some "u") none none).dir? ∧
    (∃ d1, (mainRun ⟨fun _ => FetchResult.success "img", fun _ => DecodeResult.image⟩ "data" true
        ⟨fun c => if c = "sunglasses" then some "u" else none, fun _ => none⟩).1.dirs "sunglasses"
        = some d1 ∧
      strip (readFile d1 "status.txt") = "OK") ∧
    (mainRun ⟨fun _ => FetchResult.success "img", fun _ => DecodeResult.image⟩ "data" true
        ⟨fun c => if c = "sunglasses" then some "u" else none, fun _ => none⟩).1.dirs "dress"
      = (⟨fun c => if c = "sunglasses" then some "u" else none, fun _ => none⟩ : RootState).dirs
          "dress" ∧
    (mainRun ⟨fun _ => FetchResult.success "img", fun _ => DecodeResult.image⟩ "data" true
        ⟨fun c => if c = "sunglasses" then some "u" else none, fun _ => none⟩).1.manifests
      = (⟨fun c => if c = "sunglasses" then some "u" else none, fun _ => none⟩ : RootState).manifests :=
  C10_earlier_classes_persist
    ⟨fun _ => FetchResult.success "img", fun _ => DecodeResult.image⟩ "data"
    ⟨fun c => if c = "sunglasses" then some "u" else none, fun _ => none⟩ "u"
    rfl rfl (fun d0 h => Option.noConfusion h) (by decide)

end Marabou
